import Mathlib

/-!
Shallow embedding of the aseprite-previewer-x decoding and compositing core:
`src/public/ase-reader.js` (class `AseReader`, the binary parser) and the
`AseCanvasRenderer` class of `src/electron/preload.js` (layer visibility,
linked-cel resolution, per-depth pixel decoding, frame compositing).

Modelling conventions:
- The byte buffer is a `List Nat` (one entry per byte); the DataView offset is
  an `Int`, since `skipBytes` can move the cursor by a negative amount
  (`chunkSize - 6` with `chunkSize < 6`).  A DataView read at a negative or
  past-the-end offset throws in JS; reads return `Option` and yield `none`
  there.
- UTF-8 string decoding (`Utf8ArrayToStr`) is value decoration only; decoded
  strings are kept as their raw byte lists.
- `getFloat32` (readNextFixed) is kept as the raw 4 bytes it consumes; no
  claim depends on the float value.
- The deflate path of cel type 2 (`pako.inflate`) is modelled by the code's
  own fallback, which the code takes when pako is absent or decompression
  fails: the payload is used as-is.  This only affects the stored byte
  values, never cursor movement.
- The HTML canvas is modelled as the ordered list of blit operations
  (`drawImage` calls) applied to it after clearing: each `writeCel` that
  paints appends one `Blit` carrying the cel offsets, dimensions and the
  decoded RGBA bytes of its `ImageData`.
- The unbounded `while` of `getCelData` is given an explicit fuel parameter;
  a `none` result for every fuel models the loop never exiting.
-/

/-- Variants of the `flags` field the renderer's `isLayerVisible` must handle:
a raw number (what `AseReader.readLayerChunk` stores), a parsed object with a
`visible` boolean (ase-parser library documents), or anything else. -/
inductive FlagsVal where
  | num (n : Nat)
  | obj (visible : Bool)
  | unknown
deriving DecidableEq

/-- One palette entry of `readPaletteChunk`; `name` is `none` for the
JS default placeholder. -/
structure Color where
  red : Nat
  green : Nat
  blue : Nat
  alpha : Nat
  name : Option (List Nat)
deriving DecidableEq

/-- Result of `readPaletteChunk`. -/
structure Palette where
  paletteSize : Nat
  firstColor : Nat
  lastColor : Nat
  colors : List Color
deriving DecidableEq

/-- One entry of `this.layers` pushed by `readLayerChunk`. -/
structure Layer where
  flags : FlagsVal
  type : Nat
  layerChildLevel : Nat
  blendMode : Nat
  opacity : Nat
  name : List Nat
deriving DecidableEq

/-- Result of `readCelChunk`: the JS object
`{layerIndex, xpos, ypos, opacity, celType, ...pixelD}` where `pixelD`
carries either `w`/`h`/`rawCelData` (cel types other than 1) or
`linkedFrame` (cel type 1).  Absent JS properties are `none`. -/
structure Cel where
  layerIndex : Nat
  xpos : Int
  ypos : Int
  opacity : Nat
  celType : Nat
  w : Option Nat := none
  h : Option Nat := none
  rawCelData : Option (List Nat) := none
  linkedFrame : Option Nat := none
deriving DecidableEq

/-- One entry of `this.frames` pushed by `readFrame`. -/
structure Frame where
  bytesInFrame : Nat
  frameDuration : Nat
  numChunks : Nat
  cels : List Cel
deriving DecidableEq

/-- One entry of `this.tags` pushed by `readFrameTagsChunk`.  `animDirection`
stores the index into the JS `loops` array, `none` when the index is out of
range (JS `undefined`). -/
structure Tag where
  fromFrame : Nat
  toFrame : Nat
  animDirection : Option Nat
  color : List Nat
  name : List Nat
deriving DecidableEq

/-- Result of `readColorProfileChunk`; the float gamma is kept as its raw
4 bytes. -/
structure ColorProfile where
  type : Nat
  flag : Nat
  fGammaBytes : List Nat
deriving DecidableEq

/-- The `AseReader` instance: its DataView (`buf`), cursor (`off`) and all
document fields the class accumulates. -/
structure AseReader where
  buf : List Nat
  off : Int
  frames : List Frame
  layers : List Layer
  tags : List Tag
  palette : Option Palette
  colorProfile : Option ColorProfile
  fileSize : Nat
  numFrames : Nat
  width : Nat
  height : Nat
  colorDepth : Nat
  numColors : Nat
  pixW : Nat
  pixH : Nat
deriving DecidableEq

/-- A fresh `new AseReader(arrayBuffer, name)`. -/
def AseReader.init (buf : List Nat) : AseReader :=
  { buf := buf, off := 0, frames := [], layers := [], tags := [],
    palette := none, colorProfile := none, fileSize := 0, numFrames := 0,
    width := 0, height := 0, colorDepth := 0, numColors := 0,
    pixW := 0, pixH := 0 }

/-- `getUint8` of the DataView: fails (throws in JS) outside the buffer. -/
def readByteAt (buf : List Nat) (off : Int) : Option Nat :=
  if 0 ≤ off then buf[off.toNat]? else none

/-- `readNextByte`: one byte, cursor advances by 1. -/
def readNextByte (buf : List Nat) (off : Int) : Option (Nat × Int) :=
  (readByteAt buf off).map (fun b => (b, off + 1))

/-- `readNextWord`: 16-bit little-endian unsigned, cursor advances by 2. -/
def readNextWord (buf : List Nat) (off : Int) : Option (Nat × Int) := do
  let b0 ← readByteAt buf off
  let b1 ← readByteAt buf (off + 1)
  pure (b0 + 256 * b1, off + 2)

/-- `readNextShort`: 16-bit little-endian signed. -/
def readNextShort (buf : List Nat) (off : Int) : Option (Int × Int) := do
  let (u, o) ← readNextWord buf off
  pure (if u < 32768 then (u : Int) else (u : Int) - 65536, o)

/-- `readNextDWord`: 32-bit little-endian unsigned, cursor advances by 4. -/
def readNextDWord (buf : List Nat) (off : Int) : Option (Nat × Int) := do
  let b0 ← readByteAt buf off
  let b1 ← readByteAt buf (off + 1)
  let b2 ← readByteAt buf (off + 2)
  let b3 ← readByteAt buf (off + 3)
  pure (b0 + 256 * (b1 + 256 * (b2 + 256 * b3)), off + 4)

/-- Byte-by-byte loop of `readNextRawBytes`. -/
def readRawBytesGo (buf : List Nat) (off : Int) : Nat → Option (List Nat × Int)
  | 0 => some ([], off)
  | n + 1 => do
    let b ← readByteAt buf off
    let (bs, o) ← readRawBytesGo buf (off + 1) n
    pure (b :: bs, o)

/-- `readNextRawBytes(numBytes)`: JS throws on a negative
`new ArrayBuffer(numBytes)` length, then reads byte by byte. -/
def readNextRawBytes (buf : List Nat) (n : Int) (off : Int) :
    Option (List Nat × Int) :=
  if n < 0 then none else readRawBytesGo buf off n.toNat

/-- `readNextString`: 2-byte length then that many bytes (kept raw). -/
def readNextString (buf : List Nat) (off : Int) : Option (List Nat × Int) := do
  let (n, o) ← readNextWord buf off
  readNextRawBytes buf (n : Int) o

/-- `readChunk`: a chunk's own byte size then its type code. -/
def readChunk (buf : List Nat) (off : Int) : Option ((Nat × Nat) × Int) := do
  let (cSize, o1) ← readNextDWord buf off
  let (ty, o2) ← readNextWord buf o1
  pure ((cSize, ty), o2)

/-- `readColorProfileChunk` (type 0x2007). -/
def readColorProfileChunk (buf : List Nat) (off : Int) :
    Option (ColorProfile × Int) := do
  let (ty, o1) ← readNextWord buf off
  let (fl, o2) ← readNextWord buf o1
  let (g, o3) ← readNextRawBytes buf 4 o2
  pure (⟨ty, fl, g⟩, o3 + 8)

/-- Per-color loop of `readPaletteChunk`: flag word, r/g/b/a bytes, and a
name string exactly when the flag word equals 1. -/
def readPaletteColors (buf : List Nat) (off : Int) :
    Nat → Option (List Color × Int)
  | 0 => some ([], off)
  | n + 1 => do
    let (flag, o1) ← readNextWord buf off
    let (r, o2) ← readNextByte buf o1
    let (g, o3) ← readNextByte buf o2
    let (b, o4) ← readNextByte buf o3
    let (a, o5) ← readNextByte buf o4
    let (nm, o6) ←
      if flag = 1 then do
        let (s, o) ← readNextString buf o5
        pure ((some s : Option (List Nat)), o)
      else pure ((none : Option (List Nat)), o5)
    let (rest, o7) ← readPaletteColors buf o6 n
    pure (⟨r, g, b, a, nm⟩ :: rest, o7)

/-- `readPaletteChunk` (type 0x2019). -/
def readPaletteChunk (buf : List Nat) (off : Int) : Option (Palette × Int) := do
  let (pSize, o1) ← readNextDWord buf off
  let (fstC, o2) ← readNextDWord buf o1
  let (sndC, o3) ← readNextDWord buf o2
  let (cs, o4) ← readPaletteColors buf (o3 + 8) pSize
  pure (⟨pSize, fstC, sndC, cs⟩, o4)

/-- `readLayerChunk` (type 0x2004); the raw flags word is stored. -/
def readLayerChunk (buf : List Nat) (off : Int) : Option (Layer × Int) := do
  let (flags, o1) ← readNextWord buf off
  let (ty, o2) ← readNextWord buf o1
  let (clv, o3) ← readNextWord buf o2
  let (bm, o4) ← readNextWord buf (o3 + 4)
  let (op, o5) ← readNextByte buf o4
  let (nm, o6) ← readNextString buf (o5 + 3)
  pure (⟨.num flags, ty, clv, bm, op, nm⟩, o6)

/-- `readCelChunk(chunkSize)` (type 0x2005).  Cel type 1 stores only
`linkedFrame`; other cel types read width, height and `chunkSize - 26`
payload bytes.  `rawCelData` is set for cel types 0 and 2 (type 2 through
the pako raw-fallback path) and stays absent for any other non-linked
cel type, exactly as in the JS. -/
def readCelChunk (buf : List Nat) (chunkSize : Nat) (off : Int) :
    Option (Cel × Int) := do
  let (li, o1) ← readNextWord buf off
  let (x, o2) ← readNextShort buf o1
  let (y, o3) ← readNextShort buf o2
  let (op, o4) ← readNextByte buf o3
  let (ct, o5) ← readNextWord buf o4
  if ct ≠ 1 then do
    let (w, o7) ← readNextWord buf (o5 + 7)
    let (h, o8) ← readNextWord buf o7
    let (buff, o9) ← readNextRawBytes buf ((chunkSize : Int) - 26) o8
    pure ({ layerIndex := li, xpos := x, ypos := y, opacity := op,
            celType := ct, w := some w, h := some h,
            rawCelData := if ct = 2 ∨ ct = 0 then some buff else none,
            linkedFrame := none }, o9)
  else do
    let (lf, o7) ← readNextWord buf (o5 + 7)
    pure ({ layerIndex := li, xpos := x, ypos := y, opacity := op,
            celType := ct, linkedFrame := some lf }, o7)

/-- Per-tag loop of `readFrameTagsChunk`. -/
def readTagsGo (buf : List Nat) (off : Int) : Nat → Option (List Tag × Int)
  | 0 => some ([], off)
  | n + 1 => do
    let (tagFrom, o1) ← readNextWord buf off
    let (tagTo, o2) ← readNextWord buf o1
    let (loopsInd, o3) ← readNextByte buf o2
    let (col, o4) ← readNextRawBytes buf 3 (o3 + 8)
    let (nm, o5) ← readNextString buf (o4 + 1)
    let (rest, o6) ← readTagsGo buf o5 n
    pure (⟨tagFrom, tagTo, if loopsInd < 3 then some loopsInd else none,
           col, nm⟩ :: rest, o6)

/-- `readFrameTagsChunk` (type 0x2018). -/
def readFrameTagsChunk (buf : List Nat) (off : Int) :
    Option (List Tag × Int) := do
  let (numTags, o1) ← readNextWord buf off
  readTagsGo buf (o1 + 8) numTags

/-- The chunk-type `switch` in `readFrame`, one chunk after its
size/type header has been read.  The first group is the seven explicitly
enumerated skip cases (`skipBytes(chunkSize - 6)`); a type matching no
case at all falls through the switch and changes nothing. -/
def processChunk (s : AseReader) (cSize ty : Nat) :
    Option (AseReader × Option Cel) :=
  if ty = 0x0004 ∨ ty = 0x2006 ∨ ty = 0x0011 ∨ ty = 0x2016 ∨ ty = 0x2017 ∨
      ty = 0x2020 ∨ ty = 0x2022 then
    some ({ s with off := s.off + ((cSize : Int) - 6) }, none)
  else if ty = 0x2004 then do
    let (l, o) ← readLayerChunk s.buf s.off
    some ({ s with off := o, layers := s.layers ++ [l] }, none)
  else if ty = 0x2005 then do
    let (c, o) ← readCelChunk s.buf cSize s.off
    some ({ s with off := o }, some c)
  else if ty = 0x2007 then do
    let (cp, o) ← readColorProfileChunk s.buf s.off
    some ({ s with off := o, colorProfile := some cp }, none)
  else if ty = 0x2018 then do
    let (ts, o) ← readFrameTagsChunk s.buf s.off
    some ({ s with off := o, tags := s.tags ++ ts }, none)
  else if ty = 0x2019 then do
    let (p, o) ← readPaletteChunk s.buf s.off
    some ({ s with off := o, palette := some p }, none)
  else
    some (s, none)

/-- The `for i < newChunk` loop of `readFrame`: read each chunk header,
dispatch it, and collect the cels pushed by case 0x2005. -/
def readFrameChunks (s : AseReader) (cels : List Cel) :
    Nat → Option (AseReader × List Cel)
  | 0 => some (s, cels)
  | n + 1 => do
    let ((cSize, ty), o) ← readChunk s.buf s.off
    let (s', oc) ← processChunk { s with off := o } cSize ty
    match oc with
    | some cel => readFrameChunks s' (cels ++ [cel]) n
    | none => readFrameChunks s' cels n

/-- `readFrame`: frame header then `newChunk` chunks, pushing one frame. -/
def AseReader.readFrame (s : AseReader) : Option AseReader := do
  let (bytesInFrame, o1) ← readNextDWord s.buf s.off
  let (_oldChunk, o3) ← readNextWord s.buf (o1 + 2)
  let (frameDuration, o4) ← readNextWord s.buf o3
  let (newChunk, o6) ← readNextDWord s.buf (o4 + 2)
  let (s', cels) ← readFrameChunks { s with off := o6 } [] newChunk
  pure { s' with
          frames := s'.frames ++
            [⟨bytesInFrame, frameDuration, newChunk, cels⟩] }

/-- `readHeader`: the 128-byte file header. -/
def AseReader.readHeader (s : AseReader) : Option AseReader := do
  let (fileSize, o1) ← readNextDWord s.buf s.off
  let (_magic, o2) ← readNextWord s.buf o1
  let (numFrames, o3) ← readNextWord s.buf o2
  let (width, o4) ← readNextWord s.buf o3
  let (height, o5) ← readNextWord s.buf o4
  let (colorDepth, o6) ← readNextWord s.buf o5
  let (numColors, o8) ← readNextWord s.buf (o6 + 18)
  let (pixW, o9) ← readNextByte s.buf o8
  let (pixH, o10) ← readNextByte s.buf o9
  pure { s with
          off := o10 + 92, fileSize := fileSize,
          numFrames := numFrames, width := width, height := height,
          colorDepth := colorDepth, numColors := numColors,
          pixW := pixW, pixH := pixH }

/-- The `for i < numFrames: readFrame()` loop of `parse`. -/
def AseReader.parseFrames (s : AseReader) : Nat → Option AseReader
  | 0 => some s
  | n + 1 => do
    let s' ← AseReader.readFrame s
    AseReader.parseFrames s' n

/-- `parse`: read the header, then one frame per declared frame. -/
def AseReader.parse (s : AseReader) : Option AseReader := do
  let s1 ← AseReader.readHeader s
  AseReader.parseFrames s1 s1.numFrames

/-- The flag-derived part of `isLayerVisible`: a `visible === true` check for
object flags, bit 0 for numeric flags, and default-visible otherwise. -/
def flagVisible : FlagsVal → Bool
  | .obj v => v
  | .num n => n % 2 = 1
  | .unknown => true

/-- `isLayerVisible(layerIndex)` of `AseCanvasRenderer`: a missing layer
entry is visible by default; otherwise the `layerVisibility` override map
(`ov`) wins, and failing that the layer's own flags decide. -/
def isLayerVisible (d : AseReader) (ov : Nat → Option Bool) (li : Nat) :
    Bool :=
  match d.layers[li]? with
  | none => true
  | some layer =>
    match ov li with
    | some b => b
    | none => flagVisible layer.flags

/-- What `getCelData` returns: `{h, w, rawCelData}` of the cel the chain
ends on. -/
structure CelPix where
  w : Option Nat
  h : Option Nat
  rawCelData : Option (List Nat)
deriving DecidableEq

/-- The `while (nextCel.celType === 1)` loop of `getCelData`, which follows
`linkedFrame` references always at the same cel position `numCel`.  The JS
loop has no hop bound; `fuel` makes the model total, and a `none` result at
every fuel means the loop never exits (or a lookup crashed). -/
def getCelDataLoop (d : AseReader) (numCel : Nat) :
    Nat → Cel → Option CelPix
  | 0, _ => none
  | fuel + 1, nextCel =>
    if nextCel.celType = 1 then do
      let lf ← nextCel.linkedFrame
      let fr ← d.frames[lf]?
      let nc ← fr.cels[numCel]?
      getCelDataLoop d numCel fuel nc
    else
      some ⟨nextCel.w, nextCel.h, nextCel.rawCelData⟩

/-- `getCelData(lFrame, numCel)`: start at `frames[lFrame].cels[numCel]`;
a cel without `linkedFrame` returns its own fields, otherwise the loop
follows the chain. -/
def getCelData (d : AseReader) (lFrame numCel fuel : Nat) : Option CelPix := do
  let fr ← d.frames[lFrame]?
  let currCel ← fr.cels[numCel]?
  match currCel.linkedFrame with
  | some _ => getCelDataLoop d numCel fuel currCel
  | none => some ⟨currCel.w, currCel.h, currCel.rawCelData⟩

/-- The palette lookup chain of the depth-8 branch of `writeCel`:
`palette && palette.colors && palette.colors[index]`. -/
def palColor (pal : Option Palette) (idx : Nat) : Option Color :=
  pal.bind (fun p => p.colors[idx]?)

/-- Builds the `ImageData` byte array pixel by pixel: `f i` is the 4 RGBA
bytes the loop body leaves at pixel `i` (`[0,0,0,0]` where the JS loop body
does not write, since `createImageData` zero-initialises). -/
def decodePixels (f : Nat → List Nat) : Nat → List Nat
  | 0 => []
  | n + 1 => decodePixels f n ++ f n

/-- Depth-8 loop body of `writeCel`: the raw byte is a palette index;
a missing palette or out-of-range index leaves transparent black. -/
def pixel8 (raw : List Nat) (pal : Option Palette) (i : Nat) : List Nat :=
  if i < raw.length then
    match palColor pal (raw.getD i 0) with
    | some c => [c.red, c.green, c.blue, c.alpha]
    | none => [0, 0, 0, 0]
  else [0, 0, 0, 0]

/-- Depth-16 loop body of `writeCel`: (value, alpha) pairs become
(value, value, value, alpha); a truncated pair stays zeroed. -/
def pixel16 (raw : List Nat) (i : Nat) : List Nat :=
  if 2 * i + 1 < raw.length then
    [raw.getD (2 * i) 0, raw.getD (2 * i) 0, raw.getD (2 * i) 0,
     raw.getD (2 * i + 1) 0]
  else [0, 0, 0, 0]

/-- Depth-8 decode of a `w*h` cel. -/
def decode8 (w h : Nat) (raw : List Nat) (pal : Option Palette) : List Nat :=
  decodePixels (pixel8 raw pal) (w * h)

/-- Depth-16 decode of a `w*h` cel. -/
def decode16 (w h : Nat) (raw : List Nat) : List Nat :=
  decodePixels (pixel16 raw) (w * h)

/-- Depth-32 branch of `writeCel`: with enough data the first
`w*h*4` bytes are copied verbatim; with a shortfall all available bytes are
copied and the rest of the `ImageData` stays zero. -/
def decode32 (w h : Nat) (raw : List Nat) : List Nat :=
  if w * h * 4 ≤ raw.length then raw.take (w * h * 4)
  else raw ++ List.replicate (w * h * 4 - raw.length) 0

/-- RGBA components of pixel `i` of a decoded image. -/
def pixelAt (img : List Nat) (i : Nat) : Nat × Nat × Nat × Nat :=
  (img.getD (4 * i) 0, img.getD (4 * i + 1) 0, img.getD (4 * i + 2) 0,
   img.getD (4 * i + 3) 0)

/-- One `ctx.drawImage(tempCanvas, cel.xpos, cel.ypos)` call: position,
cel dimensions and the decoded RGBA bytes of its `ImageData`. -/
structure Blit where
  x : Int
  y : Int
  w : Nat
  h : Nat
  data : List Nat
deriving DecidableEq

/-- The body of `writeCel` after the cel record is in hand: the
data-integrity guards (missing or empty `rawCelData`, missing or
non-positive width or height) return without painting; otherwise the cel is
decoded at the document's colour depth (`colorDepth || 32`) and one blit is
appended.  A depth matching neither 32, 16 nor 8 paints the untouched
zero-initialised `ImageData`, as the JS does. -/
def paintCel (d : AseReader) (cel : Cel) (canvas : List Blit) : List Blit :=
  let depth := if d.colorDepth = 0 then 32 else d.colorDepth
  match cel.rawCelData with
  | none => canvas
  | some raw =>
    if raw.length = 0 then canvas
    else
      match cel.w, cel.h with
      | some w, some h =>
        if w = 0 ∨ h = 0 then canvas
        else
          let img :=
            if depth = 32 then decode32 w h raw
            else if depth = 16 then decode16 w h raw
            else if depth = 8 then decode8 w h raw d.palette
            else List.replicate (w * h * 4) 0
          canvas ++ [⟨cel.xpos, cel.ypos, w, h, img⟩]
      | _, _ => canvas

/-- `writeCel(numCel)`: fetch the cel of the current frame; a linked cel
(type 1) is merged with the resolved `getCelData` fields — the JS spread
`{...getCelData(...), ...celData}` keeps the linking cel's own
position/opacity fields and, since a linked cel carries no `w`, `h` or
`rawCelData` properties, takes those three from the resolution result. -/
def writeCel (d : AseReader) (currentFrame numCel fuel : Nat)
    (canvas : List Blit) : Option (List Blit) := do
  let fr ← d.frames[currentFrame]?
  let celData ← fr.cels[numCel]?
  if celData.celType ≠ 1 then
    pure (paintCel d celData canvas)
  else do
    let lf ← celData.linkedFrame
    let cp ← getCelData d lf numCel fuel
    pure (paintCel d
      { celData with w := cp.w, h := cp.h, rawCelData := cp.rawCelData }
      canvas)

/-- The cel loop of `renderFrame`: for each cel in stored order, skip it
when its layer is not effectively visible, else `writeCel` it.  `i` is the
running cel index handed to `writeCel`. -/
def renderLoop (d : AseReader) (ov : Nat → Option Bool)
    (frameIndex fuel : Nat) :
    List Cel → Nat → List Blit → Option (List Blit)
  | [], _, canvas => some canvas
  | celData :: rest, i, canvas =>
    if isLayerVisible d ov celData.layerIndex then
      (writeCel d frameIndex i fuel canvas).bind
        (renderLoop d ov frameIndex fuel rest (i + 1))
    else renderLoop d ov frameIndex fuel rest (i + 1) canvas

/-- The mutable fields of `AseCanvasRenderer` that `renderFrame` touches. -/
structure RendererState where
  aseData : Option AseReader
  currentFrame : Nat
  lastRenderTime : Int
  layerVisibility : Nat → Option Bool

/-- Outcome of one `renderFrame` call:  `skipped` models the early
`return`s (invalid data/frame, or the 100 ms rate limit), `rendered` the
painted canvas, and `hang` a linked-cel resolution that never terminates
(fuel exhausted). -/
inductive RenderResult where
  | skipped
  | rendered (blits : List Blit)
  | hang
deriving DecidableEq

/-- `renderFrame(frameIndex)` at wall-clock time `now` (`Date.now()`):
guard on data and frame index, rate-limit against `lastRenderTime`, then
update `lastRenderTime`/`currentFrame`, clear the canvas and paint every
effectively visible cel. -/
def renderFrame (st : RendererState) (frameIndex : Nat) (now : Int)
    (fuel : Nat) : RendererState × RenderResult :=
  match st.aseData with
  | none => (st, .skipped)
  | some d =>
    match d.frames[frameIndex]? with
    | none => (st, .skipped)
    | some fr =>
      if now - st.lastRenderTime < 100 then (st, .skipped)
      else
        let st' := { st with lastRenderTime := now,
                             currentFrame := frameIndex }
        match renderLoop d st.layerVisibility frameIndex fuel
            fr.cels 0 [] with
        | none => (st', .hang)
        | some blits => (st', .rendered blits)

/-! ### Parser bookkeeping lemmas

`processChunk`, `readFrameChunks` and `readHeader` never touch
`this.frames` or `this.numFrames`; `readFrame` pushes exactly one frame. -/

theorem processChunk_pres {s s' : AseReader} {cSize ty : Nat}
    {oc : Option Cel} (h : processChunk s cSize ty = some (s', oc)) :
    s'.frames = s.frames ∧ s'.numFrames = s.numFrames := by
  unfold processChunk at h
  split at h
  · simp only [Option.some.injEq, Prod.mk.injEq] at h
    obtain ⟨h1, -⟩ := h
    subst h1
    exact ⟨rfl, rfl⟩
  · split at h
    · simp only [Option.bind_eq_bind, Option.bind_eq_some, Option.some.injEq,
        Prod.mk.injEq] at h
      obtain ⟨⟨l, o⟩, -, h1, -⟩ := h
      subst h1
      exact ⟨rfl, rfl⟩
    · split at h
      · simp only [Option.bind_eq_bind, Option.bind_eq_some, Option.some.injEq,
          Prod.mk.injEq] at h
        obtain ⟨⟨c, o⟩, -, h1, -⟩ := h
        subst h1
        exact ⟨rfl, rfl⟩
      · split at h
        · simp only [Option.bind_eq_bind, Option.bind_eq_some,
            Option.some.injEq, Prod.mk.injEq] at h
          obtain ⟨⟨cp, o⟩, -, h1, -⟩ := h
          subst h1
          exact ⟨rfl, rfl⟩
        · split at h
          · simp only [Option.bind_eq_bind, Option.bind_eq_some,
              Option.some.injEq, Prod.mk.injEq] at h
            obtain ⟨⟨ts, o⟩, -, h1, -⟩ := h
            subst h1
            exact ⟨rfl, rfl⟩
          · split at h
            · simp only [Option.bind_eq_bind, Option.bind_eq_some,
                Option.some.injEq, Prod.mk.injEq] at h
              obtain ⟨⟨p, o⟩, -, h1, -⟩ := h
              subst h1
              exact ⟨rfl, rfl⟩
            · simp only [Option.some.injEq, Prod.mk.injEq] at h
              obtain ⟨h1, -⟩ := h
              subst h1
              exact ⟨rfl, rfl⟩

theorem readFrameChunks_pres :
    ∀ n (s : AseReader) cels s' cels',
      readFrameChunks s cels n = some (s', cels') →
      s'.frames = s.frames ∧ s'.numFrames = s.numFrames := by
  intro n
  induction n with
  | zero =>
    intro s cels s' cels' h
    simp only [readFrameChunks, Option.some.injEq, Prod.mk.injEq] at h
    obtain ⟨h1, -⟩ := h
    subst h1
    exact ⟨rfl, rfl⟩
  | succ n ih =>
    intro s cels s' cels' h
    simp only [readFrameChunks, Option.bind_eq_bind, Option.bind_eq_some] at h
    obtain ⟨⟨⟨cSize, ty⟩, o⟩, -, h⟩ := h
    obtain ⟨⟨s1, oc⟩, hpc, h⟩ := h
    have hp := processChunk_pres hpc
    cases oc with
    | some cel =>
      have hr := ih s1 (cels ++ [cel]) s' cels' h
      exact ⟨hr.1.trans hp.1, hr.2.trans hp.2⟩
    | none =>
      have hr := ih s1 cels s' cels' h
      exact ⟨hr.1.trans hp.1, hr.2.trans hp.2⟩

theorem readFrame_pres {s s' : AseReader}
    (h : AseReader.readFrame s = some s') :
    s'.frames.length = s.frames.length + 1 ∧ s'.numFrames = s.numFrames := by
  unfold AseReader.readFrame at h
  simp only [Option.bind_eq_bind, Option.bind_eq_some, Option.pure_def,
    Option.some.injEq] at h
  obtain ⟨⟨bfr, o1⟩, -, h⟩ := h
  obtain ⟨⟨oldc, o3⟩, -, h⟩ := h
  obtain ⟨⟨dur, o4⟩, -, h⟩ := h
  obtain ⟨⟨nc, o6⟩, -, h⟩ := h
  obtain ⟨⟨s1, cels⟩, hfc, h⟩ := h
  have hp := readFrameChunks_pres nc _ [] s1 cels hfc
  subst h
  constructor
  · simp [hp.1]
  · simp [hp.2]

theorem parseFrames_count :
    ∀ n (s : AseReader) s', AseReader.parseFrames s n = some s' →
      s'.frames.length = s.frames.length + n ∧ s'.numFrames = s.numFrames := by
  intro n
  induction n with
  | zero =>
    intro s s' h
    simp only [AseReader.parseFrames, Option.some.injEq] at h
    subst h
    exact ⟨rfl, rfl⟩
  | succ n ih =>
    intro s s' h
    simp only [AseReader.parseFrames, Option.bind_eq_bind,
      Option.bind_eq_some] at h
    obtain ⟨s1, hrf, h⟩ := h
    have h1 := readFrame_pres hrf
    have h2 := ih s1 s' h
    constructor
    · omega
    · exact h2.2.trans h1.2

theorem readHeader_pres {s s' : AseReader}
    (h : AseReader.readHeader s = some s') : s'.frames = s.frames := by
  unfold AseReader.readHeader at h
  simp only [Option.bind_eq_bind, Option.bind_eq_some, Option.pure_def,
    Option.some.injEq] at h
  obtain ⟨⟨a1, o1⟩, -, h⟩ := h
  obtain ⟨⟨a2, o2⟩, -, h⟩ := h
  obtain ⟨⟨a3, o3⟩, -, h⟩ := h
  obtain ⟨⟨a4, o4⟩, -, h⟩ := h
  obtain ⟨⟨a5, o5⟩, -, h⟩ := h
  obtain ⟨⟨a6, o6⟩, -, h⟩ := h
  obtain ⟨⟨a7, o8⟩, -, h⟩ := h
  obtain ⟨⟨a8, o9⟩, -, h⟩ := h
  obtain ⟨⟨a9, o10⟩, -, h⟩ := h
  subst h
  rfl

/-- C5: for every buffer on which `parse` completes, the number of frames
accumulated in `this.frames` equals the frame count read from the header
(`readFrame` pushes exactly one frame and the `parse` loop runs
`numFrames` times). -/
theorem parse_frame_count (buf : List Nat) (s' : AseReader)
    (h : AseReader.parse (AseReader.init buf) = some s') :
    s'.frames.length = s'.numFrames := by
  unfold AseReader.parse at h
  simp only [Option.bind_eq_bind, Option.bind_eq_some] at h
  obtain ⟨s1, hh, hp⟩ := h
  have h1 := readHeader_pres hh
  have h2 := parseFrames_count s1.numFrames s1 s' hp
  have h3 : s1.frames = [] := by
    rw [h1]
    rfl
  rw [h2.1, h3, h2.2]
  simp

/-- A minimal well-formed file image: a 128-byte header declaring one frame
(`numFrames` word at offset 6), then one 16-byte frame block declaring zero
chunks. -/
def demoBuf : List Nat :=
  List.replicate 6 0 ++ [1, 0] ++ List.replicate 136 0

set_option maxRecDepth 4000 in
/-- Witness for C5: parsing `demoBuf` succeeds and yields exactly
`numFrames` frames. -/
theorem parse_frame_count_witness :
    ∃ s', AseReader.parse (AseReader.init demoBuf) = some s' ∧
      s'.frames.length = s'.numFrames := by
  cases hp : AseReader.parse (AseReader.init demoBuf) with
  | none =>
    have hs : (AseReader.parse (AseReader.init demoBuf)).isSome = true := rfl
    rw [hp] at hs
    simp at hs
  | some s => exact ⟨s, rfl, parse_frame_count demoBuf s hp⟩

/-! ### Pixel decode lemmas -/

theorem decodePixels_length (f : Nat → List Nat)
    (hf : ∀ j, (f j).length = 4) : ∀ n, (decodePixels f n).length = 4 * n := by
  intro n
  induction n with
  | zero => rfl
  | succ n ih =>
    simp only [decodePixels, List.length_append, ih, hf]
    omega

theorem decodePixels_getD (f : Nat → List Nat)
    (hf : ∀ j, (f j).length = 4) :
    ∀ n i k, i < n → k < 4 →
      (decodePixels f n).getD (4 * i + k) 0 = (f i).getD k 0 := by
  intro n
  induction n with
  | zero => intro i k hi hk; omega
  | succ n ih =>
    intro i k hi hk
    rcases Nat.lt_succ_iff_lt_or_eq.mp hi with h | h
    · have hlen : 4 * i + k < (decodePixels f n).length := by
        rw [decodePixels_length f hf]
        omega
      simp only [decodePixels]
      rw [List.getD_eq_getElem?_getD, List.getElem?_append, if_pos hlen,
        ← List.getD_eq_getElem?_getD]
      exact ih i k h hk
    · subst h
      have hlen : (decodePixels f i).length = 4 * i :=
        decodePixels_length f hf i
      simp only [decodePixels]
      rw [List.getD_eq_getElem?_getD, List.getElem?_append,
        if_neg (by omega), hlen]
      have he : 4 * i + k - 4 * i = k := by omega
      rw [he, ← List.getD_eq_getElem?_getD]

/-- C6: at colour depth 8 each raw byte is a palette index; a pixel whose
index resolves through the palette chain gets that colour's RGBA, and a
pixel whose index misses the palette (or whose document has none) gets
transparent black, with no failure in either case. -/
theorem indexed_decode_palette (w h : Nat) (raw : List Nat)
    (pal : Option Palette) (i : Nat) (h1 : i < w * h) (h2 : i < raw.length) :
    (∀ c, palColor pal (raw.getD i 0) = some c →
       pixelAt (decode8 w h raw pal) i = (c.red, c.green, c.blue, c.alpha))
  ∧ (palColor pal (raw.getD i 0) = none →
       pixelAt (decode8 w h raw pal) i = (0, 0, 0, 0)) := by
  have hf : ∀ j, (pixel8 raw pal j).length = 4 := by
    intro j
    unfold pixel8
    split
    · split <;> rfl
    · rfl
  have hk : ∀ k, k < 4 →
      (decode8 w h raw pal).getD (4 * i + k) 0 = (pixel8 raw pal i).getD k 0 :=
    fun k hkk => decodePixels_getD (pixel8 raw pal) hf (w * h) i k h1 hkk
  have e0 : (decode8 w h raw pal).getD (4 * i) 0 =
      (pixel8 raw pal i).getD 0 0 := by
    have hx := hk 0 (by omega)
    simpa using hx
  have e1 := hk 1 (by omega)
  have e2 := hk 2 (by omega)
  have e3 := hk 3 (by omega)
  constructor
  · intro c hc
    have hp : pixel8 raw pal i = [c.red, c.green, c.blue, c.alpha] := by
      unfold pixel8
      rw [if_pos h2, hc]
    unfold pixelAt
    rw [e0, e1, e2, e3, hp]
    rfl
  · intro hc
    have hp : pixel8 raw pal i = [0, 0, 0, 0] := by
      unfold pixel8
      rw [if_pos h2, hc]
    unfold pixelAt
    rw [e0, e1, e2, e3, hp]
    rfl

/-- A six-colour palette whose index 5 holds `{10, 20, 30, 255}`. -/
def pal6 : Palette :=
  ⟨6, 0, 5,
   [⟨1, 1, 1, 255, none⟩, ⟨2, 2, 2, 255, none⟩, ⟨3, 3, 3, 255, none⟩,
    ⟨4, 4, 4, 255, none⟩, ⟨5, 5, 5, 255, none⟩, ⟨10, 20, 30, 255, none⟩]⟩

/-- Witness for C6: palette index 5 decodes to (10,20,30,255); the same
byte with no palette decodes to transparent black. -/
theorem indexed_decode_palette_witness :
    pixelAt (decode8 1 1 [5] (some pal6)) 0 = (10, 20, 30, 255) ∧
    pixelAt (decode8 1 1 [5] none) 0 = (0, 0, 0, 0) :=
  ⟨(indexed_decode_palette 1 1 [5] (some pal6) 0 (by decide) (by decide)).1
     ⟨10, 20, 30, 255, none⟩ (by decide),
   (indexed_decode_palette 1 1 [5] none 0 (by decide) (by decide)).2
     (by decide)⟩

/-- C7: at colour depth 32, a payload shorter than `w*h*4` is not fatal:
all available bytes are copied verbatim, the rest of the output is zero,
the output has full size, and `writeCel`'s painting path uses exactly that
zero-padded image. -/
theorem truncated_payload_decode (w h : Nat) (raw : List Nat)
    (hlt : raw.length < w * h * 4) :
    decode32 w h raw = raw ++ List.replicate (w * h * 4 - raw.length) 0 ∧
    (decode32 w h raw).length = w * h * 4 ∧
    (∀ (d : AseReader) (cel : Cel) (canvas : List Blit),
      d.colorDepth = 32 → cel.rawCelData = some raw → raw.length ≠ 0 →
      cel.w = some w → cel.h = some h → w ≠ 0 → h ≠ 0 →
      paintCel d cel canvas =
        canvas ++ [⟨cel.xpos, cel.ypos, w, h,
          raw ++ List.replicate (w * h * 4 - raw.length) 0⟩]) := by
  have hd32 : decode32 w h raw =
      raw ++ List.replicate (w * h * 4 - raw.length) 0 := by
    unfold decode32
    rw [if_neg (by omega)]
  refine ⟨hd32, ?_, ?_⟩
  · rw [hd32]
    simp only [List.length_append, List.length_replicate]
    omega
  · intro d cel canvas hdep hraw hne hw hh hw0 hh0
    simp only [paintCel, hraw, hw, hh, hdep, hd32, if_neg hne]
    rw [if_neg (show ¬(w = 0 ∨ h = 0) by omega)]
    simp

/-! ### Compositor and visibility lemmas -/

theorem renderLoop_cons (d : AseReader) (ov : Nat → Option Bool)
    (fi fuel : Nat) (celData : Cel) (rest : List Cel) (i : Nat)
    (canvas : List Blit) :
    renderLoop d ov fi fuel (celData :: rest) i canvas =
      if isLayerVisible d ov celData.layerIndex then
        (writeCel d fi i fuel canvas).bind
          (renderLoop d ov fi fuel rest (i + 1))
      else renderLoop d ov fi fuel rest (i + 1) canvas := rfl

/-- C8: for an in-range parsed layer, effective visibility is the caller's
override when one is set for that index and otherwise the flag-derived
default (bit 0 of numeric raw flags, the `visible` field of object flags,
visible when the flag data has neither shape); and a cel whose layer has a
`false` override is skipped by the compositing loop, contributing nothing. -/
theorem layer_visibility_policy (d : AseReader) (ov : Nat → Option Bool)
    (li : Nat) (hlt : li < d.layers.length) :
    isLayerVisible d ov li = (ov li).getD (flagVisible (d.layers[li]).flags)
  ∧ (∀ fi fuel (celData : Cel) rest i canvas, ov li = some false →
      celData.layerIndex = li →
      renderLoop d ov fi fuel (celData :: rest) i canvas =
        renderLoop d ov fi fuel rest (i + 1) canvas) := by
  have hsome : d.layers[li]? = some d.layers[li] :=
    List.getElem?_eq_getElem hlt
  constructor
  · unfold isLayerVisible
    rw [hsome]
    cases hov : ov li <;> simp [hov]
  · intro fi fuel celData rest i canvas hov hli
    have hvis : isLayerVisible d ov celData.layerIndex = false := by
      unfold isLayerVisible
      rw [hli, hsome, hov]
    rw [renderLoop_cons, hvis]
    simp

/-- Two raw-visible layers (numeric flags with bit 0 set). -/
def d8 : AseReader :=
  { AseReader.init [] with
      colorDepth := 32,
      layers := [⟨.num 1, 0, 0, 0, 255, []⟩, ⟨.num 1, 0, 0, 0, 255, []⟩] }

/-- Overrides hiding layer 1 only (the JS `setLayerVisibility(1, false)`
map). -/
def ov8 : Nat → Option Bool := fun i => if i = 1 then some false else none

/-- A direct cel on layer 1. -/
def cel8 : Cel :=
  { layerIndex := 1, xpos := 0, ypos := 0, opacity := 255, celType := 0,
    w := some 1, h := some 1, rawCelData := some [1, 2, 3, 4] }

/-- Witness for C8: with `setLayerVisibility(1, false)` layer 1 is
effectively hidden even though its raw flag marks it visible, and its cel
leaves the canvas untouched. -/
theorem layer_visibility_policy_witness :
    isLayerVisible d8 ov8 1 = false ∧
    renderLoop d8 ov8 0 9 [cel8] 0 [] = some [] := by
  have hx := layer_visibility_policy d8 ov8 1 (by decide)
  constructor
  · rw [hx.1]
    rfl
  · rw [hx.2 0 9 cel8 [] 0 [] rfl rfl]
    rfl

/-- C4 (amended): a cel whose `layerIndex` has no corresponding parsed
layer is treated as visible — the missing-layer default — so the
compositing loop takes the `writeCel` branch for it rather than skipping
it or failing. -/
theorem out_of_range_layer_rendered (d : AseReader) (ov : Nat → Option Bool)
    (li : Nat) (hnone : d.layers[li]? = none) :
    isLayerVisible d ov li = true
  ∧ (∀ fi fuel (celData : Cel) rest i canvas, celData.layerIndex = li →
      renderLoop d ov fi fuel (celData :: rest) i canvas =
        (writeCel d fi i fuel canvas).bind
          (renderLoop d ov fi fuel rest (i + 1))) := by
  have hvis : isLayerVisible d ov li = true := by
    unfold isLayerVisible
    rw [hnone]
  constructor
  · exact hvis
  · intro fi fuel celData rest i canvas hli
    rw [renderLoop_cons, hli, hvis]
    simp

/-- A direct 1x1 cel claiming layer 5 of a document with no layers. -/
def cel4 : Cel :=
  { layerIndex := 5, xpos := 0, ypos := 0, opacity := 255, celType := 0,
    w := some 1, h := some 1, rawCelData := some [1, 2, 3, 4] }

/-- A layerless one-frame document whose only cel has out-of-range
`layerIndex` 5. -/
def d4 : AseReader :=
  { AseReader.init [] with
      colorDepth := 32, width := 1, height := 1, numFrames := 1,
      frames := [⟨16, 100, 1, [cel4]⟩] }

/-- Renderer freshly loaded with `d4`. -/
def st4 : RendererState :=
  { aseData := some d4, currentFrame := 0, lastRenderTime := 0,
    layerVisibility := fun _ => none }

/-- Counterexample for C4 as stated: the out-of-range cel is not treated
as invisible — rendering the frame paints its pixels onto the canvas. -/
theorem oor_layer_painted_counterexample :
    d4.layers.length = 0 ∧
    (renderFrame st4 0 1000 9).2 =
      RenderResult.rendered [⟨0, 0, 1, 1, [1, 2, 3, 4]⟩] := by
  constructor
  · rfl
  · rfl

/-- Witness for the amended C4 at the concrete document `d4`. -/
theorem out_of_range_layer_rendered_witness :
    isLayerVisible d4 (fun _ => none) 5 = true ∧
    renderLoop d4 (fun _ => none) 0 9 [cel4] 0 [] =
      (writeCel d4 0 0 9 []).bind
        (renderLoop d4 (fun _ => none) 0 9 [] 1) := by
  have hx := out_of_range_layer_rendered d4 (fun _ => none) 5 rfl
  exact ⟨hx.1, hx.2 0 9 cel4 [] 0 [] rfl⟩

/-- C10: a cel that reaches `writeCel`'s data-integrity guards with missing
or empty pixel data, or a missing or zero width or height, is skipped
entirely: the canvas is returned unchanged and nothing is painted over the
region the cel would cover. -/
theorem degenerate_cel_not_painted (d : AseReader) (cel : Cel)
    (canvas : List Blit)
    (h : cel.rawCelData = none ∨ cel.rawCelData = some [] ∨
         cel.w = none ∨ cel.w = some 0 ∨ cel.h = none ∨ cel.h = some 0) :
    paintCel d cel canvas = canvas := by
  rcases h with h | h | h | h | h | h <;>
    cases hr : cel.rawCelData <;> cases hw : cel.w <;> cases hh : cel.h <;>
      simp_all [paintCel]

/-- A linked-style record with no pixel data at all. -/
def celEmpty : Cel :=
  { layerIndex := 0, xpos := 3, ypos := 4, opacity := 255, celType := 0 }

/-- A canvas already holding one blit. -/
def demoBlit : Blit := ⟨0, 0, 1, 1, [9, 9, 9, 9]⟩

/-- Witness for C10: the data-less cel leaves an already-painted canvas
exactly as it was. -/
theorem degenerate_cel_not_painted_witness :
    paintCel (AseReader.init []) celEmpty [demoBlit] = [demoBlit] :=
  degenerate_cel_not_painted (AseReader.init []) celEmpty [demoBlit]
    (Or.inl rfl)

/-- Witness for C7: a 1x1 depth-32 cel with only 2 of its 4 payload bytes
decodes to those two bytes followed by zeros. -/
theorem truncated_payload_decode_witness :
    decode32 1 1 [7, 8] = [7, 8, 0, 0] ∧ (decode32 1 1 [7, 8]).length = 4 := by
  have hx := truncated_payload_decode 1 1 [7, 8] (by decide)
  exact ⟨hx.1.trans rfl, hx.2.1⟩

/-! ### Linked-cel resolution -/

/-- Frame 0, cel position 0: a direct cel on layer 1. -/
def celA : Cel :=
  { layerIndex := 1, xpos := 0, ypos := 0, opacity := 255, celType := 0,
    w := some 1, h := some 1, rawCelData := some [9, 9, 9, 9] }

/-- Frame 0, cel position 1: a direct cel on layer 0. -/
def celB : Cel :=
  { layerIndex := 0, xpos := 0, ypos := 0, opacity := 255, celType := 0,
    w := some 1, h := some 1, rawCelData := some [1, 1, 1, 1] }

/-- Frame 1, cel position 0: a linked cel on layer 0 referencing frame 0. -/
def celL : Cel :=
  { layerIndex := 0, xpos := 0, ypos := 0, opacity := 255, celType := 1,
    linkedFrame := some 0 }

/-- Two-frame document whose frame 0 lists its layer-1 cel before its
layer-0 cel, while frame 1 holds only the layer-0 linked cel. -/
def d2 : AseReader :=
  { AseReader.init [] with
      colorDepth := 32, width := 1, height := 1, numFrames := 2,
      layers := [⟨.num 1, 0, 0, 0, 255, []⟩, ⟨.num 1, 0, 0, 0, 255, []⟩],
      frames := [⟨16, 100, 2, [celA, celB]⟩, ⟨16, 100, 1, [celL]⟩] }

/-- Counterexample for C2 as stated: frame 1's LinkedCel(layerIndex 0,
linkedFrameIndex 0) resolves to frame 0's position-0 cel `celA` — a cel of
layer 1 with bytes `[9,9,9,9]` — not to `celB`, the frame-0 cel whose
`layerIndex` matches (bytes `[1,1,1,1]`), and compositing paints `celA`'s
bytes. -/
theorem linked_resolution_ignores_layer_counterexample :
    getCelData d2 0 0 9 = some ⟨some 1, some 1, some [9, 9, 9, 9]⟩ ∧
    (d2.frames.getD 0 ⟨0, 0, 0, []⟩).cels.filter
      (fun c => c.layerIndex = 0) = [celB] ∧
    celB.rawCelData = some [1, 1, 1, 1] ∧
    writeCel d2 1 0 9 [] = some [⟨0, 0, 1, 1, [9, 9, 9, 9]⟩] ∧
    ([9, 9, 9, 9] : List Nat) ≠ [1, 1, 1, 1] := by
  refine ⟨rfl, by decide, rfl, rfl, by decide⟩

/-- Chain-following at a fixed cel position `p`, read off the loop of
`getCelData`: `ResolvesIn d p k c t` holds when, starting from cel `c` and
taking `k` link steps — each step going to
`frames[linkedFrame].cels[p]` exactly as one iteration of the JS `while`
does — a direct cel `t` (celType other than 1) is reached.  It
characterises the terminating linked-cel chains. -/
inductive ResolvesIn (d : AseReader) (p : Nat) : Nat → Cel → Cel → Prop where
  | direct (c : Cel) (hdir : c.celType ≠ 1) : ResolvesIn d p 0 c c
  | link (c : Cel) (f' : Nat) (fr' : Frame) (c' t : Cel) (k : Nat)
      (h1 : c.celType = 1) (h2 : c.linkedFrame = some f')
      (h3 : d.frames[f']? = some fr') (h4 : fr'.cels[p]? = some c')
      (h5 : ResolvesIn d p k c' t) : ResolvesIn d p (k + 1) c t

/-- A chain that terminates after `k` hops is resolved by the loop of
`getCelData` under any fuel beyond `k`, to the terminal direct cel's
fields. -/
theorem resolvesIn_loop {d : AseReader} {p : Nat} :
    ∀ {k : Nat} {c t : Cel}, ResolvesIn d p k c t →
      ∀ m, getCelDataLoop d p (k + m + 1) c =
        some ⟨t.w, t.h, t.rawCelData⟩ := by
  intro k c t h
  induction h with
  | direct c hdir =>
    intro m
    rw [show 0 + m + 1 = m + 1 by omega]
    unfold getCelDataLoop
    rw [if_neg hdir]
  | link c f' fr' c' t k h1 h2 h3 h4 h5 ih =>
    intro m
    rw [show k + 1 + m + 1 = (k + m + 1) + 1 by omega]
    unfold getCelDataLoop
    rw [if_pos h1, h2]
    simp only [Option.bind_eq_bind, Option.some_bind]
    rw [h3]
    simp only [Option.some_bind]
    rw [h4]
    simp only [Option.some_bind]
    exact ih m

/-- `getCelData(lf, p)` on a cel whose chain terminates after `k` hops
returns the terminal direct cel's fields, for any fuel beyond `k`. -/
theorem getCelData_of_resolvesIn {d : AseReader} {p lf k : Nat}
    {fr' : Frame} {c' t : Cel} (h3 : d.frames[lf]? = some fr')
    (h4 : fr'.cels[p]? = some c') (h5 : ResolvesIn d p k c' t) (m : Nat) :
    getCelData d lf p (k + m + 1) = some ⟨t.w, t.h, t.rawCelData⟩ := by
  unfold getCelData
  rw [h3]
  simp only [Option.bind_eq_bind, Option.some_bind]
  rw [h4]
  simp only [Option.some_bind]
  cases hlf : c'.linkedFrame with
  | none =>
    cases h5 with
    | direct _ hdir => rfl
    | link _ f2 fr2 c2 t2 k2 h1x h2x h3x h4x h5x =>
      rw [hlf] at h2x
      cases h2x
  | some x =>
    exact resolvesIn_loop h5 m

/-- C2 (amended): linked-cel resolution follows the linking cel's position
in the cels array, not its `layerIndex`: a cel at position `p` without a
link returns its own fields; a cel whose chain — following further links
at that same position — terminates at a direct cel after any number `k`
of hops resolves to that direct cel's width, height and bytes; and
`writeCel` paints exactly those resolved bytes at the linking cel's own
offsets. -/
theorem linked_resolution_position (d : AseReader) (f p fuel : Nat)
    (fr : Frame) (c : Cel) (hf : d.frames[f]? = some fr)
    (hc : fr.cels[p]? = some c) :
    (c.linkedFrame = none →
       getCelData d f p fuel = some ⟨c.w, c.h, c.rawCelData⟩)
  ∧ (∀ t k m, ResolvesIn d p k c t →
      getCelData d f p (k + m + 1) = some ⟨t.w, t.h, t.rawCelData⟩)
  ∧ (∀ f' fr' c' t k m fi frI, c.celType = 1 → c.linkedFrame = some f' →
      d.frames[f']? = some fr' → fr'.cels[p]? = some c' →
      ResolvesIn d p k c' t →
      d.frames[fi]? = some frI → frI.cels[p]? = some c →
      ∀ canvas, writeCel d fi p (k + m + 1) canvas =
        some (paintCel d
          { c with w := t.w, h := t.h, rawCelData := t.rawCelData }
          canvas)) := by
  refine ⟨?_, ?_, ?_⟩
  · intro hnone
    unfold getCelData
    rw [hf]
    simp only [Option.bind_eq_bind, Option.some_bind]
    rw [hc]
    simp only [Option.some_bind]
    rw [hnone]
  · intro t k m h5
    exact getCelData_of_resolvesIn hf hc h5 m
  · intro f' fr' c' t k m fi frI hct hlf hf' hc' h5 hfi hci canvas
    unfold writeCel
    rw [hfi]
    simp only [Option.bind_eq_bind, Option.some_bind]
    rw [hci]
    simp only [Option.some_bind]
    rw [if_neg (by simp [hct]), hlf]
    simp only [Option.some_bind]
    rw [getCelData_of_resolvesIn hf' hc' h5 m]
    simp only [Option.some_bind]
    rfl

/-- Frame 2's cel of `d2c`: linked, pointing at frame 1 — the start of a
two-hop chain. -/
def celL2 : Cel :=
  { layerIndex := 0, xpos := 0, ypos := 0, opacity := 255, celType := 1,
    linkedFrame := some 1 }

/-- A document with a two-hop linked-cel chain at position 0:
frame 2 → frame 1 → frame 0's direct cel `celA`. -/
def d2c : AseReader :=
  { AseReader.init [] with
      colorDepth := 32, width := 1, height := 1, numFrames := 3,
      layers := [⟨.num 1, 0, 0, 0, 255, []⟩, ⟨.num 1, 0, 0, 0, 255, []⟩],
      frames := [⟨16, 100, 1, [celA]⟩, ⟨16, 100, 1, [celL]⟩,
                 ⟨16, 100, 1, [celL2]⟩] }

/-- Witness for the amended C2: frame 2's linked cel resolves through the
two-hop chain to frame 0's position-0 direct cel, and compositing frame 2
paints exactly those resolved bytes. -/
theorem linked_resolution_position_witness :
    getCelData d2c 2 0 9 = some ⟨some 1, some 1, some [9, 9, 9, 9]⟩ ∧
    writeCel d2c 2 0 9 [] = some [⟨0, 0, 1, 1, [9, 9, 9, 9]⟩] := by
  have hA : ResolvesIn d2c 0 0 celA celA :=
    ResolvesIn.direct celA (by decide)
  have hL : ResolvesIn d2c 0 1 celL celA :=
    ResolvesIn.link celL 0 ⟨16, 100, 1, [celA]⟩ celA celA 0
      rfl rfl rfl rfl hA
  have hL2 : ResolvesIn d2c 0 2 celL2 celA :=
    ResolvesIn.link celL2 1 ⟨16, 100, 1, [celL]⟩ celL celA 1
      rfl rfl rfl rfl hL
  have hx := linked_resolution_position d2c 2 0 9 ⟨16, 100, 1, [celL2]⟩
    celL2 rfl rfl
  constructor
  · exact hx.2.1 celA 2 6 hL2
  · exact (hx.2.2 1 ⟨16, 100, 1, [celL]⟩ celL celA 1 7 2 ⟨16, 100, 1, [celL2]⟩
      rfl rfl rfl rfl hL rfl rfl []).trans rfl

/-! ### Chunk dispatch on unconsumed types -/

/-- A reader state with the cursor at the origin. -/
def s3 : AseReader := AseReader.init []

/-- Counterexample for C3 as stated: chunk type 0x2023 is consumed by no
case, and the dispatch advances the cursor by zero bytes — not by
`chunkSize - 6` (which would be 94 here) — leaving it at the payload
start. -/
theorem unknown_chunk_not_skipped_counterexample :
    processChunk s3 100 0x2023 = some (s3, none) ∧
    s3.off + ((100 : Int) - 6) ≠ s3.off := by
  exact ⟨rfl, by decide⟩

/-- C3 (amended): only the seven explicitly enumerated unconsumed chunk
types (0x0004, 0x2006, 0x0011, 0x2016, 0x2017, 0x2020, 0x2022) are skipped
by exactly `chunkSize - 6` payload bytes with no error; a chunk type in
neither the consumed nor the enumerated list is dispatched as a no-op that
consumes none of its payload, leaving the cursor at the payload start. -/
theorem unknown_chunk_handling (s : AseReader) (cSize ty : Nat) :
    ((ty = 0x0004 ∨ ty = 0x2006 ∨ ty = 0x0011 ∨ ty = 0x2016 ∨ ty = 0x2017 ∨
        ty = 0x2020 ∨ ty = 0x2022) →
      processChunk s cSize ty =
        some ({ s with off := s.off + ((cSize : Int) - 6) }, none))
  ∧ (ty ∉ ([0x0004, 0x2006, 0x0011, 0x2016, 0x2017, 0x2020, 0x2022,
            0x2004, 0x2005, 0x2007, 0x2018, 0x2019] : List Nat) →
      processChunk s cSize ty = some (s, none)) := by
  constructor
  · intro h
    unfold processChunk
    rw [if_pos h]
  · intro h
    simp only [List.mem_cons, List.not_mem_nil, or_false, not_or] at h
    obtain ⟨h1, h2, h3, h4, h5, h6, h7, h8, h9, h10, h11, h12⟩ := h
    unfold processChunk
    rw [if_neg (by tauto), if_neg h8, if_neg h9, if_neg h10, if_neg h11,
      if_neg h12]

/-- Witness for C3: an enumerated type (0x2016) skips `chunkSize - 6`
bytes; an unlisted type (0x2023) changes nothing. -/
theorem unknown_chunk_handling_witness :
    processChunk s3 100 0x2016 =
      some ({ s3 with off := s3.off + ((100 : Int) - 6) }, none) ∧
    processChunk s3 100 0x2023 = some (s3, none) := by
  constructor
  · exact (unknown_chunk_handling s3 100 0x2016).1 (by decide)
  · exact (unknown_chunk_handling s3 100 0x2023).2 (by decide)

/-! ### Rate limiting and determinism of renderFrame -/

/-- A visible direct 1x1 cel. -/
def cel9 : Cel :=
  { layerIndex := 0, xpos := 0, ypos := 0, opacity := 255, celType := 0,
    w := some 1, h := some 1, rawCelData := some [1, 2, 3, 4] }

/-- A one-frame, one-layer document. -/
def d9 : AseReader :=
  { AseReader.init [] with
      colorDepth := 32, width := 1, height := 1, numFrames := 1,
      layers := [⟨.num 1, 0, 0, 0, 255, []⟩],
      frames := [⟨16, 100, 1, [cel9]⟩] }

/-- Renderer freshly loaded with `d9` (`lastRenderTime` 0). -/
def st9 : RendererState :=
  { aseData := some d9, currentFrame := 0, lastRenderTime := 0,
    layerVisibility := fun _ => none }

/-- The same document under a different mutable history. -/
def st9b : RendererState :=
  { aseData := some d9, currentFrame := 3, lastRenderTime := -50,
    layerVisibility := fun _ => none }

/-- Counterexample for C9 as stated: two `renderFrame` calls with the same
document, frame index and overrides give different results because the
first call mutates `lastRenderTime` and the second call, 50 ms later, is
swallowed by the 100 ms rate limiter. -/
theorem render_not_reentrant_counterexample :
    (renderFrame st9 0 1000 9).2 =
      RenderResult.rendered [⟨0, 0, 1, 1, [1, 2, 3, 4]⟩] ∧
    (renderFrame (renderFrame st9 0 1000 9).1 0 1050 9).2 =
      RenderResult.skipped ∧
    RenderResult.rendered [⟨0, 0, 1, 1, [1, 2, 3, 4]⟩] ≠
      RenderResult.skipped := by
  refine ⟨rfl, rfl, by decide⟩

/-- C9 (amended): whenever the 100 ms rate limiter admits the call,
`renderFrame`'s result depends only on the document, the frame index and
the visibility overrides — the other mutable renderer state
(`currentFrame`, the previous `lastRenderTime`, the wall-clock time) does
not influence it. -/
theorem render_deterministic_when_admitted (st1 st2 : RendererState)
    (fi : Nat) (now1 now2 : Int) (fuel : Nat)
    (hd : st1.aseData = st2.aseData)
    (hov : st1.layerVisibility = st2.layerVisibility)
    (h1 : ¬ now1 - st1.lastRenderTime < 100)
    (h2 : ¬ now2 - st2.lastRenderTime < 100) :
    (renderFrame st1 fi now1 fuel).2 = (renderFrame st2 fi now2 fuel).2 := by
  unfold renderFrame
  rw [hd, hov]
  cases st2.aseData with
  | none => rfl
  | some d =>
    dsimp only
    cases hfr : d.frames[fi]? with
    | none => rfl
    | some fr =>
      dsimp only
      rw [if_neg h1, if_neg h2]
      cases renderLoop d st2.layerVisibility fi fuel fr.cels 0 [] <;> rfl

/-- Witness for the amended C9: two admitted calls on the same document at
different times and from different mutable histories paint the same
canvas. -/
theorem render_deterministic_when_admitted_witness :
    (renderFrame st9 0 1000 9).2 = (renderFrame st9b 0 500 9).2 :=
  render_deterministic_when_admitted st9 st9b 0 1000 500 9 rfl rfl
    (by decide) (by decide)

/-! ### Cyclic linked-cel chains -/

/-- Frame 0's cel: linked, pointing at frame 1. -/
def celCyc0 : Cel :=
  { layerIndex := 0, xpos := 0, ypos := 0, opacity := 255, celType := 1,
    linkedFrame := some 1 }

/-- Frame 1's cel: linked, pointing back at frame 0. -/
def celCyc1 : Cel :=
  { layerIndex := 0, xpos := 0, ypos := 0, opacity := 255, celType := 1,
    linkedFrame := some 0 }

/-- The malformed two-frame document whose linked-cel chain is the cycle
frame 0 → frame 1 → frame 0. -/
def dCyc : AseReader :=
  { AseReader.init [] with
      colorDepth := 32, width := 1, height := 1, numFrames := 2,
      frames := [⟨16, 100, 1, [celCyc0]⟩, ⟨16, 100, 1, [celCyc1]⟩] }

/-- Renderer loaded with the cyclic document. -/
def stCyc : RendererState :=
  { aseData := some dCyc, currentFrame := 0, lastRenderTime := 0,
    layerVisibility := fun _ => none }

/-- On the cycle, each step of the resolution loop reaches the other cel
and never a direct one, so no finite fuel makes the loop exit. -/
theorem cyc_loop_none (fuel : Nat) :
    getCelDataLoop dCyc 0 fuel celCyc0 = none ∧
    getCelDataLoop dCyc 0 fuel celCyc1 = none := by
  induction fuel with
  | zero => exact ⟨rfl, rfl⟩
  | succ n ih =>
    constructor
    · have hstep : getCelDataLoop dCyc 0 (n + 1) celCyc0 =
          getCelDataLoop dCyc 0 n celCyc1 := rfl
      rw [hstep]
      exact ih.2
    · have hstep : getCelDataLoop dCyc 0 (n + 1) celCyc1 =
          getCelDataLoop dCyc 0 n celCyc0 := rfl
      rw [hstep]
      exact ih.1

/-- C1 evaluated at the failing input: on the cyclic chain the unbounded
`while` of `getCelData` never exits — resolution yields no result for any
hop bound, in particular for bounds beyond `frameCount` — and the frame's
composite hangs rather than failing with an error. -/
theorem cyclic_linked_cels_diverge (fuel : Nat) :
    getCelData dCyc 0 0 fuel = none ∧
    (renderFrame stCyc 0 1000 fuel).2 = RenderResult.hang := by
  have h0 := cyc_loop_none fuel
  have hW : writeCel dCyc 0 0 fuel [] = none := by
    show (getCelDataLoop dCyc 0 fuel celCyc1).bind _ = none
    rw [h0.2]
    rfl
  have hL : renderLoop dCyc (fun _ => none) 0 fuel [celCyc0] 0 [] = none := by
    show (writeCel dCyc 0 0 fuel []).bind _ = none
    rw [hW]
    rfl
  constructor
  · show getCelDataLoop dCyc 0 fuel celCyc0 = none
    exact h0.1
  · show (match renderLoop dCyc (fun _ => none) 0 fuel [celCyc0] 0 [] with
      | none =>
        ({ stCyc with lastRenderTime := 1000, currentFrame := 0 },
         RenderResult.hang)
      | some blits =>
        ({ stCyc with lastRenderTime := 1000, currentFrame := 0 },
         RenderResult.rendered blits)).2 = RenderResult.hang
    rw [hL]
